import Mathlib

/-!
Verification of the gap-analysis core of the Amazon-Empty-Product-Markets
repository (src/analysis/gap_finder.py), shallowly embedded in Lean 4.

The embedding covers the co-occurrence matrix builder, the gap scorer,
the modifier gap finder and the cross-type opportunity finder.  Machine
floats are idealised as exact real arithmetic; the one-decimal rounding
of the score is represented exactly (ten times the rounded score is a
natural number, computed by integer square root, and proved equal to the
real-valued formula in score10_eq_round).
-/

namespace GapFinder

/-- A categorized suggestion as produced by the categorizer: per-dimension
tag lists plus an observed frequency.  Mirrors the dict records consumed
by gap_finder.py. -/
structure Item where
  puzzle_types : List String
  audiences : List String
  themes : List String
  modifiers : List String
  age_ranges : List String
  frequency : Nat
deriving DecidableEq, Repr

/-- Dictionary-style field access: item.get(field, []) in the source
returns the empty list for any unrecognized dimension name. -/
def Item.getField (it : Item) (f : String) : List String :=
  if f = "puzzle_types" then it.puzzle_types
  else if f = "audiences" then it.audiences
  else if f = "themes" then it.themes
  else if f = "modifiers" then it.modifiers
  else if f = "age_ranges" then it.age_ranges
  else []

/-- The two nested sentinel checks of _build_matrix: tag values
"unknown", "general" and "none" are skipped on both dimensions. -/
def isSentinel (s : String) : Bool :=
  s == "unknown" || s == "general" || s == "none"

/-- Contribution of one item to cell (r, c) of the count matrix: the
source iterates every occurrence of r in the row-dimension tag list and
every occurrence of c in the col-dimension tag list, adding frequency
each time, skipping sentinel values. -/
def Item.contrib (it : Item) (rf cf r c : String) : Nat :=
  if isSentinel r || isSentinel c then 0
  else (it.getField rf).count r * (it.getField cf).count c * it.frequency

/-- A dense count matrix over fixed row and column vocabularies
(the pandas DataFrame of _build_matrix). -/
structure CMatrix where
  rows : List String
  cols : List String
  cell : String → String → Nat

/-- _build_matrix: fold every item into the count table over the full
vocabulary product.  Cells are addressed by vocabulary value. -/
def buildMatrix (items : List Item) (rf cf : String)
    (rowValues colValues : List String) : CMatrix :=
  { rows := rowValues
    cols := colValues
    cell := fun r c => (items.map (fun it => it.contrib rf cf r c)).sum }

/-- Row total: matrix.sum(axis=1) for one row. -/
def rowTotal (m : CMatrix) (r : String) : Nat :=
  (m.cols.map (fun c => m.cell r c)).sum

/-- Column total: matrix.sum(axis=0) for one column. -/
def colTotal (m : CMatrix) (c : String) : Nat :=
  (m.rows.map (fun r => m.cell r c)).sum

/-- Column fill count: (matrix greater than 0).sum(axis=0), the number of
rows whose cell in this column is non-zero. -/
def colFillCount (m : CMatrix) (c : String) : Nat :=
  (m.rows.filter (fun r => decide (0 < m.cell r c))).length

/-- Sum of every cell of the matrix (over the vocabulary product). -/
def sumCells (m : CMatrix) : Nat :=
  (m.rows.map (fun r => (m.cols.map (fun c => m.cell r c)).sum)).sum

/-- Newton iteration for the integer square root, with explicit fuel so
that the kernel can evaluate it.  Identical to the iteration inside
Nat.sqrt; isqrt_eq_sqrt proves the agreement. -/
def isqrtIter (n : Nat) : Nat → Nat → Nat
  | 0, _ => 0
  | fuel + 1, guess =>
    let next := (guess + n / guess) / 2
    if next < guess then isqrtIter n fuel next else guess

/-- Integer square root by Newton iteration (kernel-evaluable copy of
Nat.sqrt). -/
def isqrt (n : Nat) : Nat :=
  if n ≤ 1 then n else isqrtIter n n (n / 2)

/-- Ten times the gap score round(sqrt(rt times ct) times (1 + fc/n), 1),
computed exactly in integers.  The n = 0 branch corresponds to the
source guard that sets fill_rate to 0 when the matrix has no rows.
score10_eq_round proves this equal to the real-valued source formula. -/
def score10 (rt ct fc n : Nat) : Nat :=
  if n = 0 then (isqrt (400 * (rt * ct)) + 1) / 2
  else (isqrt ((20 * (n + fc)) ^ 2 * (rt * ct)) + n) / (2 * n)

/-- Rounding a real to one decimal place, as Python round(x, 1)
idealised over the reals. -/
noncomputable def roundTo1 (x : ℝ) : ℝ := (round (10 * x) : ℤ) / 10

/-- One hundred times round(fill_rate, 2), the reported col_fill_rate
field scaled to an exact natural number: round(100 fc / n) computed by
integer division. -/
def fillRate100 (fc n : Nat) : Nat :=
  if n = 0 then 0 else (200 * fc + n) / (2 * n)

/-- Confidence tier of a gap. -/
inductive Confidence where
  | high
  | medium
  | low
deriving DecidableEq, Repr

/-- A scored gap record, mirroring the dict appended by _find_gaps.
The score10 field holds ten times the one-decimal rounded score and the
col_fill_rate100 field one hundred times the two-decimal rounded fill
rate, so that both floats are represented exactly by naturals. -/
structure Gap where
  row : String
  column : String
  score10 : Nat
  row_total : Nat
  col_total : Nat
  col_fill_count : Nat
  col_fill_rate100 : Nat
  confidence : Confidence
deriving DecidableEq, Repr

/-- The one-decimal rounded score of a gap record, as a real number. -/
noncomputable def Gap.score (g : Gap) : ℝ := (g.score10 : ℝ) / 10

/-- The gap record _find_gaps builds for a surviving zero cell (r, c). -/
def mkGap (m : CMatrix) (r c : String) : Gap :=
  { row := r
    column := c
    score10 := score10 (rowTotal m r) (colTotal m c) (colFillCount m c) m.rows.length
    row_total := rowTotal m r
    col_total := colTotal m c
    col_fill_count := colFillCount m c
    col_fill_rate100 := fillRate100 (colFillCount m c) m.rows.length
    confidence :=
      if 50 ≤ rowTotal m r ∧ 20 ≤ colTotal m c ∧ 5 ≤ colFillCount m c then Confidence.high
      else if 20 ≤ rowTotal m r ∧ 10 ≤ colTotal m c ∧ 3 ≤ colFillCount m c then Confidence.medium
      else Confidence.low }

/-- Descending-score order used by the final sort of _find_gaps.
Comparing the scaled integer scores orders exactly as comparing the
rounded real scores. -/
def gapGE (a b : Gap) : Prop := b.score10 ≤ a.score10

instance : DecidableRel gapGE := fun a b => inferInstanceAs (Decidable (b.score10 ≤ a.score10))

instance : IsTotal Gap gapGE := ⟨fun a b => le_total b.score10 a.score10⟩

instance : IsTrans Gap gapGE := ⟨fun _ _ _ h₁ h₂ => le_trans h₂ h₁⟩

/-- _find_gaps: skip rows below min_row_total, then for each column skip
non-zero cells and columns below min_col_total, emit a gap record, and
finally sort descending by score.  Thresholds are integers, as in the
Python signature. -/
def findGaps (m : CMatrix) (minRowTotal minColTotal : ℤ) : List Gap :=
  let pre := m.rows.flatMap (fun r =>
    if (rowTotal m r : ℤ) < minRowTotal then []
    else m.cols.filterMap (fun c =>
      if m.cell r c ≠ 0 then none
      else if (colTotal m c : ℤ) < minColTotal then none
      else some (mkGap m r c)))
  List.insertionSort gapGE pre

/-- The puzzle-type vocabulary PUZZLE_TYPES of seeds/seed_generator.py. -/
def PUZZLE_TYPES : List String :=
  ["word search", "crossword", "sudoku", "maze", "activity book",
   "puzzle book", "word find", "brain teaser", "trivia",
   "dot to dot", "word scramble", "cryptogram", "number search",
   "logic puzzle", "hidden word", "riddle book",
   "acrostic", "kakuro", "kenken", "nonogram", "picture puzzle",
   "rebus puzzle"]

/-- The audience vocabulary AUDIENCES of seeds/seed_generator.py. -/
def AUDIENCES : List String :=
  ["kids", "adults", "seniors", "teens", "women", "men", "boys", "girls",
   "toddlers", "elderly", "beginners", "experts", "students", "teachers",
   "couples", "families"]

/-- The key modifiers of _find_modifier_gaps. -/
def keyModifiers : List String :=
  ["large print", "easy", "hard", "giant", "relaxing"]

/-- Membership in the observed-modifier set puzzle_mod of
_find_modifier_gaps: pt equal to "unknown" is skipped, modifiers equal
to "none" are skipped, and any item tagging pt together with md
contributes. -/
def puzzleObserved (items : List Item) (pt md : String) : Bool :=
  pt != "unknown" && md != "none" &&
    items.any (fun it => it.puzzle_types.contains pt && it.modifiers.contains md)

/-- Membership in the observed-modifier set audience_mod of
_find_modifier_gaps: aud equal to "general" is skipped. -/
def audienceObserved (items : List Item) (aud md : String) : Bool :=
  aud != "general" && md != "none" &&
    items.any (fun it => it.audiences.contains aud && it.modifiers.contains md)

/-- The dict returned by _find_modifier_gaps, as association lists in
vocabulary order. -/
structure ModifierGapReport where
  puzzle_type_modifier_gaps : List (String × List String)
  audience_modifier_gaps : List (String × List String)
deriving DecidableEq, Repr

/-- _find_modifier_gaps: for each vocabulary value, the key modifiers
never observed with it, kept only when non-empty. -/
def findModifierGaps (items : List Item) : ModifierGapReport :=
  { puzzle_type_modifier_gaps := PUZZLE_TYPES.filterMap (fun pt =>
      let missing := keyModifiers.filter (fun md => !puzzleObserved items pt md)
      if missing.isEmpty then none else some (pt, missing))
    audience_modifier_gaps := AUDIENCES.filterMap (fun aud =>
      let missing := keyModifiers.filter (fun md => !audienceObserved items aud md)
      if missing.isEmpty then none else some (aud, missing)) }

/-- Membership in the theme set type_themes of
_find_cross_type_opportunities: pt equal to "unknown" is skipped and
themes equal to "none" are skipped. -/
def typeThemesB (items : List Item) (pt theme : String) : Bool :=
  pt != "unknown" && theme != "none" &&
    items.any (fun it => it.puzzle_types.contains pt && it.themes.contains theme)

/-- The keys of the type_themes dict (puzzle types that received at
least one non-sentinel theme), in deterministic first-seen order.  The
source iterates a Python dict here; only the set of keys matters to the
emitted counts. -/
def observedTypes (items : List Item) : List String :=
  (items.flatMap (fun it =>
    if it.themes.any (fun t => t != "none")
    then it.puzzle_types.filter (fun p => p != "unknown")
    else [])).dedup

/-- The union all_themes_seen of every type_themes value, in
deterministic first-seen order. -/
def allThemesSeen (items : List Item) : List String :=
  (items.flatMap (fun it =>
    if it.puzzle_types.any (fun p => p != "unknown")
    then it.themes.filter (fun t => t != "none")
    else [])).dedup

/-- The number of puzzle types other than pt whose theme set holds the
given theme (the other_count sum of _find_cross_type_opportunities). -/
def otherTypeCount (items : List Item) (pt theme : String) : Nat :=
  ((observedTypes items).filter (fun q => q != pt && typeThemesB items q theme)).length

/-- One emitted cross-type opportunity record. -/
structure CrossTypeOpportunity where
  puzzle_type : String
  theme : String
  other_types_with_theme : Nat
deriving DecidableEq, Repr

/-- Descending order on other_types_with_theme used by the final sort. -/
def ctGE (a b : CrossTypeOpportunity) : Prop :=
  b.other_types_with_theme ≤ a.other_types_with_theme

instance : DecidableRel ctGE :=
  fun a b => inferInstanceAs (Decidable (b.other_types_with_theme ≤ a.other_types_with_theme))

instance : IsTotal CrossTypeOpportunity ctGE :=
  ⟨fun a b => le_total b.other_types_with_theme a.other_types_with_theme⟩

instance : IsTrans CrossTypeOpportunity ctGE := ⟨fun _ _ _ h₁ h₂ => le_trans h₂ h₁⟩

/-- _find_cross_type_opportunities: for every vocabulary puzzle type and
every observed theme it lacks, emit the record when at least two other
types carry the theme; sort descending by that count. -/
def findCrossTypeOpportunities (items : List Item) : List CrossTypeOpportunity :=
  let pre := PUZZLE_TYPES.flatMap (fun pt =>
    (allThemesSeen items).filterMap (fun th =>
      if typeThemesB items pt th then none
      else if 2 ≤ otherTypeCount items pt th
      then some ⟨pt, th, otherTypeCount items pt th⟩
      else none))
  List.insertionSort ctGE pre

/-- Modelled from the spec for the refinement check of the cell-sum
claim: the total contribution the spec ascribes to the items, namely
frequency times the number of non-sentinel row-dimension tags times the
number of non-sentinel col-dimension tags, with no reference to the
vocabularies. -/
def specCellTotal (items : List Item) (rf cf : String) : Nat :=
  (items.map (fun it =>
    it.frequency * ((it.getField rf).filter (fun t => !isSentinel t)).length *
      ((it.getField cf).filter (fun t => !isSentinel t)).length)).sum

/-- The recognized dimension names of the categorized records. -/
def fieldNames : List String :=
  ["puzzle_types", "audiences", "themes", "modifiers", "age_ranges"]

/-- The concrete scenario matrix of the spec: rows word search and
crossword, columns animals, bible and sports, values 10 0 5 and 0 8 3. -/
def exM : CMatrix :=
  { rows := ["word search", "crossword"]
    cols := ["animals", "bible", "sports"]
    cell := fun r c =>
      if r = "word search" then
        (if c = "animals" then 10 else if c = "sports" then 5 else 0)
      else if r = "crossword" then
        (if c = "bible" then 8 else if c = "sports" then 3 else 0)
      else 0 }

/-- A three-row variant used for the fill-count monotonicity witness:
bible column total 8 carried by one row. -/
def exMfillA : CMatrix :=
  { rows := ["word search", "crossword", "sudoku"]
    cols := ["animals", "bible", "sports"]
    cell := fun r c =>
      if r = "word search" then
        (if c = "animals" then 10 else if c = "sports" then 5 else 0)
      else if r = "crossword" then
        (if c = "bible" then 8 else if c = "sports" then 3 else 0)
      else if r = "sudoku" then (if c = "sports" then 2 else 0)
      else 0 }

/-- Same totals as exMfillA but the bible column total 8 is split over
two rows, raising its fill count from one to two. -/
def exMfillB : CMatrix :=
  { rows := ["word search", "crossword", "sudoku"]
    cols := ["animals", "bible", "sports"]
    cell := fun r c =>
      if r = "word search" then
        (if c = "animals" then 10 else if c = "sports" then 5 else 0)
      else if r = "crossword" then
        (if c = "bible" then 4 else if c = "sports" then 3 else 0)
      else if r = "sudoku" then
        (if c = "bible" then 4 else if c = "sports" then 2 else 0)
      else 0 }

/-- A matrix whose single gap meets the high-confidence thresholds. -/
def exMhigh : CMatrix :=
  { rows := ["r1", "r2", "r3", "r4", "r5", "r6"]
    cols := ["c1", "c2"]
    cell := fun r c =>
      if r = "r1" then (if c = "c1" then 60 else 0)
      else if c = "c2" then 5
      else 0 }

/-- A single categorized item tagging sudoku with animals; its puzzle
type lies outside the one-row vocabulary used in the cell-sum
counterexample. -/
def itemOffVocab : Item :=
  { puzzle_types := ["sudoku"]
    audiences := []
    themes := ["animals"]
    modifiers := []
    age_ranges := []
    frequency := 1 }

/-- A well-formed item used to exhibit the silent all-zero matrix under
an unrecognized dimension name. -/
def itemWordSearch : Item :=
  { puzzle_types := ["word search"]
    audiences := ["kids"]
    themes := ["animals"]
    modifiers := ["large print"]
    age_ranges := []
    frequency := 5 }

/-- An item carrying the sentinel value "none" as a puzzle-type tag. -/
def itemNoneTag : Item :=
  { puzzle_types := ["none"]
    audiences := []
    themes := ["animals"]
    modifiers := []
    age_ranges := []
    frequency := 3 }

/-- Items for the modifier-gap witness: word search observed with large
print, crossword never paired with large print. -/
def exItemsMod : List Item :=
  [{ puzzle_types := ["word search"]
     audiences := ["kids"]
     themes := ["animals"]
     modifiers := ["large print"]
     age_ranges := []
     frequency := 5 },
   { puzzle_types := ["crossword"]
     audiences := ["adults"]
     themes := ["animals"]
     modifiers := ["easy"]
     age_ranges := []
     frequency := 3 }]

/-- Items for the cross-type witness: animals observed under word
search, crossword and sudoku; maze observed only with sports. -/
def exItemsCross : List Item :=
  [{ puzzle_types := ["word search"]
     audiences := []
     themes := ["animals"]
     modifiers := []
     age_ranges := []
     frequency := 1 },
   { puzzle_types := ["crossword"]
     audiences := []
     themes := ["animals"]
     modifiers := []
     age_ranges := []
     frequency := 1 },
   { puzzle_types := ["sudoku"]
     audiences := []
     themes := ["animals"]
     modifiers := []
     age_ranges := []
     frequency := 1 },
   { puzzle_types := ["maze"]
     audiences := []
     themes := ["sports"]
     modifiers := []
     age_ranges := []
     frequency := 1 }]

/-! ### Helper lemmas -/

theorem isqrtIter_eq (n : Nat) :
    ∀ fuel guess, guess ≤ fuel → isqrtIter n fuel guess = Nat.sqrt.iter n guess := by
  intro fuel
  induction fuel with
  | zero =>
    intro guess hg
    have hg0 : guess = 0 := Nat.le_zero.mp hg
    subst hg0
    rw [Nat.sqrt.iter]
    simp [isqrtIter]
  | succ fuel ih =>
    intro guess hg
    rw [Nat.sqrt.iter]
    simp only [isqrtIter]
    by_cases h : (guess + n / guess) / 2 < guess
    · rw [if_pos h, dif_pos h, ih _ (by omega)]
    · rw [if_neg h, dif_neg h]

theorem isqrt_eq_sqrt (n : Nat) : isqrt n = Nat.sqrt n := by
  unfold isqrt Nat.sqrt
  by_cases h : n ≤ 1
  · rw [if_pos h, if_pos h]
  · rw [if_neg h, if_neg h, isqrtIter_eq n n (n / 2) (Nat.div_le_self n 2)]

theorem isqrt_le_isqrt {m n : Nat} (h : m ≤ n) : isqrt m ≤ isqrt n := by
  rw [isqrt_eq_sqrt, isqrt_eq_sqrt]
  exact Nat.sqrt_le_sqrt h

/-- The scaled integer score equals the real-valued score formula of the
source, rounded to one decimal: the key exact-arithmetic bridge. -/
theorem score10_eq_round (rt ct fc n : Nat) (hn : 0 < n) :
    (score10 rt ct fc n : ℤ) =
      round (10 * (Real.sqrt ((rt : ℝ) * ct) * (1 + (fc : ℝ) / n))) := by
  have hn0 : (n : ℝ) ≠ 0 := Nat.cast_ne_zero.mpr hn.ne'
  have hkey : 10 * (Real.sqrt ((rt : ℝ) * ct) * (1 + (fc : ℝ) / n)) + 1 / 2 =
      (Real.sqrt (((20 * (n + fc)) ^ 2 * (rt * ct) : Nat) : ℝ) + (n : Nat)) /
        ((2 * n : Nat) : ℝ) := by
    have hb : Real.sqrt (((20 * (n + fc)) ^ 2 * (rt * ct) : Nat) : ℝ) =
        ((20 * (n + fc) : Nat) : ℝ) * Real.sqrt ((rt : ℝ) * ct) := by
      push_cast
      rw [Real.sqrt_mul (by positivity), Real.sqrt_sq (by positivity)]
    rw [hb]
    push_cast
    field_simp
    ring
  rw [round_eq, hkey]
  have h0 : (0 : ℝ) ≤ (Real.sqrt (((20 * (n + fc)) ^ 2 * (rt * ct) : Nat) : ℝ) + (n : Nat)) /
      ((2 * n : Nat) : ℝ) := by positivity
  rw [← Int.natCast_floor_eq_floor h0, Nat.floor_div_nat,
    Nat.floor_add_nat (Real.sqrt_nonneg _), Real.nat_floor_real_sqrt_eq_nat_sqrt]
  have : score10 rt ct fc n = (Nat.sqrt ((20 * (n + fc)) ^ 2 * (rt * ct)) + n) / (2 * n) := by
    rw [score10, if_neg hn.ne', isqrt_eq_sqrt]
  exact_mod_cast congrArg (Nat.cast : Nat → ℤ) this

/-- The rounded real score of a gap record in terms of the scaled
integer score. -/
theorem score10_div_ten (rt ct fc n : Nat) (hn : 0 < n) :
    (score10 rt ct fc n : ℝ) / 10 =
      roundTo1 (Real.sqrt ((rt : ℝ) * ct) * (1 + (fc : ℝ) / n)) := by
  rw [roundTo1, ← score10_eq_round rt ct fc n hn]
  norm_num

/-- Membership in the gap list: exactly the records of surviving zero
cells, in any order. -/
theorem mem_findGaps {m : CMatrix} {a b : ℤ} {g : Gap} :
    g ∈ findGaps m a b ↔ ∃ r ∈ m.rows, ∃ c ∈ m.cols,
      a ≤ (rowTotal m r : ℤ) ∧ m.cell r c = 0 ∧ b ≤ (colTotal m c : ℤ) ∧ g = mkGap m r c := by
  unfold findGaps
  rw [List.mem_insertionSort, List.mem_flatMap]
  constructor
  · rintro ⟨r, hr, hg⟩
    by_cases hrow : (rowTotal m r : ℤ) < a
    · rw [if_pos hrow] at hg
      exact absurd hg (List.not_mem_nil g)
    · rw [if_neg hrow] at hg
      rw [List.mem_filterMap] at hg
      obtain ⟨c, hc, hgc⟩ := hg
      by_cases hcell : m.cell r c ≠ 0
      · rw [if_pos hcell] at hgc
        exact absurd hgc (by simp)
      · rw [if_neg hcell] at hgc
        by_cases hcol : (colTotal m c : ℤ) < b
        · rw [if_pos hcol] at hgc
          exact absurd hgc (by simp)
        · rw [if_neg hcol] at hgc
          refine ⟨r, hr, c, hc, not_lt.mp hrow, not_not.mp hcell, not_lt.mp hcol, ?_⟩
          exact (Option.some_injective _ hgc).symm
  · rintro ⟨r, hr, c, hc, hrow, hcell, hcol, rfl⟩
    refine ⟨r, hr, ?_⟩
    rw [if_neg (not_lt.mpr hrow), List.mem_filterMap]
    refine ⟨c, hc, ?_⟩
    rw [if_neg (not_not.mpr hcell), if_neg (not_lt.mpr hcol)]

theorem score10_mono (rt ct n : Nat) {fc fc' : Nat} (h : fc ≤ fc') :
    score10 rt ct fc n ≤ score10 rt ct fc' n := by
  unfold score10
  by_cases hn : n = 0
  · rw [if_pos hn, if_pos hn]
  · rw [if_neg hn, if_neg hn]
    apply Nat.div_le_div_right
    apply Nat.add_le_add_right
    apply isqrt_le_isqrt
    have hsq : (20 * (n + fc)) ^ 2 ≤ (20 * (n + fc')) ^ 2 :=
      Nat.pow_le_pow_left (by omega) 2
    exact Nat.mul_le_mul_right _ hsq

/-! ### Claim theorems -/

/-- C1: every gap returned by the gap scorer carries score
round(sqrt(row_total times col_total) times (1 + fill_count /
total_row_count), 1), where fill_count counts the non-zero rows of the
gap's column over the full vocabulary and total_row_count is the full
vocabulary row count. -/
theorem gap_score_formula (m : CMatrix) (a b : ℤ) (g : Gap) (hg : g ∈ findGaps m a b) :
    g.score = roundTo1 (Real.sqrt ((rowTotal m g.row : ℝ) * (colTotal m g.column : ℝ)) *
      (1 + (colFillCount m g.column : ℝ) / (m.rows.length : ℝ))) := by
  rcases mem_findGaps.mp hg with ⟨r, hr, c, _, _, _, _, rfl⟩
  have hn : 0 < m.rows.length := List.length_pos.mpr (List.ne_nil_of_mem hr)
  simpa [Gap.score, mkGap] using
    score10_div_ten (rowTotal m r) (colTotal m c) (colFillCount m c) m.rows.length hn

theorem gap_score_formula_witness :
    mkGap exM ("word search") ("bible") ∈ findGaps exM 1 1 ∧
    (mkGap exM ("word search") ("bible")).score =
      roundTo1 (Real.sqrt ((rowTotal exM ((mkGap exM ("word search") ("bible")).row) : ℝ) *
        (colTotal exM ((mkGap exM ("word search") ("bible")).column) : ℝ)) *
        (1 + (colFillCount exM ((mkGap exM ("word search") ("bible")).column) : ℝ) /
          (exM.rows.length : ℝ))) :=
  ⟨by decide, gap_score_formula exM 1 1 _ (by decide)⟩

/-- C2: every returned gap sits on a zero cell whose row and column
totals meet the thresholds (rows below the row threshold are skipped
entirely), and the list is sorted descending by score. -/
theorem findGaps_zero_filtered_sorted (m : CMatrix) (a b : ℤ) :
    (∀ g ∈ findGaps m a b, m.cell g.row g.column = 0 ∧
      a ≤ (rowTotal m g.row : ℤ) ∧ b ≤ (colTotal m g.column : ℤ)) ∧
    (findGaps m a b).Sorted (fun g₁ g₂ => g₂.score ≤ g₁.score) := by
  constructor
  · intro g hg
    rcases mem_findGaps.mp hg with ⟨r, _, c, _, hrow, hcell, hcol, rfl⟩
    exact ⟨hcell, hrow, hcol⟩
  · have hs : (findGaps m a b).Sorted gapGE := List.sorted_insertionSort gapGE _
    refine hs.imp ?_
    intro g₁ g₂ h
    have h10 : (0 : ℝ) < 10 := by norm_num
    exact (div_le_div_iff_of_pos_right h10).mpr (Nat.cast_le.mpr h)

theorem findGaps_zero_filtered_sorted_witness :
    exM.cell (mkGap exM ("crossword") ("animals")).row
        (mkGap exM ("crossword") ("animals")).column = 0 ∧
    (findGaps exM 1 1).Sorted (fun g₁ g₂ => g₂.score ≤ g₁.score) :=
  ⟨((findGaps_zero_filtered_sorted exM 1 1).1 _ (by decide)).1,
   (findGaps_zero_filtered_sorted exM 1 1).2⟩

/-- C4: confidence tiers are assigned in strict high, medium, low order
from the gap's row total, column total and fill count. -/
theorem findGaps_confidence_tiers (m : CMatrix) (a b : ℤ) (g : Gap)
    (hg : g ∈ findGaps m a b) :
    (g.confidence = Confidence.high ↔
      50 ≤ g.row_total ∧ 20 ≤ g.col_total ∧ 5 ≤ g.col_fill_count) ∧
    (g.confidence = Confidence.medium ↔
      ¬(50 ≤ g.row_total ∧ 20 ≤ g.col_total ∧ 5 ≤ g.col_fill_count) ∧
        (20 ≤ g.row_total ∧ 10 ≤ g.col_total ∧ 3 ≤ g.col_fill_count)) ∧
    (g.confidence = Confidence.low ↔
      ¬(50 ≤ g.row_total ∧ 20 ≤ g.col_total ∧ 5 ≤ g.col_fill_count) ∧
        ¬(20 ≤ g.row_total ∧ 10 ≤ g.col_total ∧ 3 ≤ g.col_fill_count)) := by
  rcases mem_findGaps.mp hg with ⟨r, _, c, _, _, _, _, rfl⟩
  by_cases h1 : 50 ≤ rowTotal m r ∧ 20 ≤ colTotal m c ∧ 5 ≤ colFillCount m c
  · simp [mkGap, h1]
  · by_cases h2 : 20 ≤ rowTotal m r ∧ 10 ≤ colTotal m c ∧ 3 ≤ colFillCount m c
    · simp [mkGap, h1, h2]
    · simp [mkGap, h1, h2]

theorem findGaps_confidence_tiers_witness :
    mkGap exMhigh ("r1") ("c2") ∈ findGaps exMhigh 1 1 ∧
    (mkGap exMhigh ("r1") ("c2")).confidence = Confidence.high :=
  ⟨by decide, ((findGaps_confidence_tiers exMhigh 1 1 _ (by decide)).1).mpr (by decide)⟩

/-- C5: holding the cell's row total, column total and the matrix row
count fixed, a matrix with at least as many non-zero rows in the gap's
column yields a score at least as large. -/
theorem gap_score_monotone_fill (m₁ m₂ : CMatrix) (a b : ℤ) (r c : String)
    (hrt : rowTotal m₁ r = rowTotal m₂ r) (hct : colTotal m₁ c = colTotal m₂ c)
    (hlen : m₁.rows.length = m₂.rows.length)
    (hfc : colFillCount m₁ c ≤ colFillCount m₂ c)
    (g₁ g₂ : Gap) (h₁ : g₁ ∈ findGaps m₁ a b) (h₂ : g₂ ∈ findGaps m₂ a b)
    (hg₁r : g₁.row = r) (hg₁c : g₁.column = c)
    (hg₂r : g₂.row = r) (hg₂c : g₂.column = c) :
    g₁.score ≤ g₂.score := by
  rcases mem_findGaps.mp h₁ with ⟨r₁, _, c₁, _, _, _, _, rfl⟩
  rcases mem_findGaps.mp h₂ with ⟨r₂, _, c₂, _, _, _, _, rfl⟩
  rw [show r₁ = r from hg₁r, show c₁ = c from hg₁c,
    show r₂ = r from hg₂r, show c₂ = c from hg₂c]
  have hs : (mkGap m₁ r c).score10 ≤ (mkGap m₂ r c).score10 := by
    simp only [mkGap]
    rw [hrt, hct, hlen]
    exact score10_mono _ _ _ hfc
  have h10 : (0 : ℝ) < 10 := by norm_num
  exact (div_le_div_iff_of_pos_right h10).mpr (Nat.cast_le.mpr hs)

theorem gap_score_monotone_fill_witness :
    rowTotal exMfillA ("word search") = rowTotal exMfillB ("word search") ∧
    colFillCount exMfillA ("bible") ≤ colFillCount exMfillB ("bible") ∧
    (mkGap exMfillA ("word search") ("bible")).score ≤
      (mkGap exMfillB ("word search") ("bible")).score :=
  ⟨by decide, by decide,
   gap_score_monotone_fill exMfillA exMfillB 1 1 ("word search") ("bible")
     (by decide) (by decide) (by decide) (by decide) _ _
     (by decide) (by decide) rfl rfl rfl rfl⟩

theorem sum_indicator (t : String) :
    ∀ (vocab : List String), vocab.Nodup →
      (vocab.map (fun v => if isSentinel v then 0 else if v == t then 1 else 0)).sum
        = if !isSentinel t && vocab.contains t then 1 else 0 := by
  intro vocab
  induction vocab with
  | nil => simp
  | cons w ws ih =>
    intro hv
    have hwmem : w ∉ ws := (List.nodup_cons.mp hv).1
    have hws : ws.Nodup := (List.nodup_cons.mp hv).2
    rw [List.map_cons, List.sum_cons]
    by_cases hwt : w = t
    · subst hwt
      have htail :
          (ws.map (fun v => if isSentinel v then 0 else if v == w then 1 else 0)).sum = 0 := by
        apply List.sum_eq_zero
        intro x hx
        rw [List.mem_map] at hx
        obtain ⟨v, hvmem, rfl⟩ := hx
        have hne : (v == w) = false := by
          simp only [beq_eq_false_iff_ne]
          intro hvw
          exact hwmem (hvw ▸ hvmem)
        by_cases hs : isSentinel v
        · simp [hs]
        · simp [hs, hne]
      rw [htail]
      have hcont : (w :: ws).contains w = true := by simp
      by_cases hs : isSentinel w
      · simp [hs, hcont]
      · simp [hs, hcont]
    · have hhead : (if isSentinel w then 0 else if w == t then 1 else 0) = 0 := by
        have hne : (w == t) = false := beq_eq_false_iff_ne.mpr hwt
        by_cases hs : isSentinel w
        · simp [hs]
        · simp [hs, hne]
      have hcont : (w :: ws).contains t = ws.contains t := by
        have hne : (t == w) = false := beq_eq_false_iff_ne.mpr (Ne.symm hwt)
        simp only [List.contains_cons, hne, Bool.false_or]
      rw [hhead, hcont, Nat.zero_add, ih hws]

theorem sum_count_vocab (tags : List String) (vocab : List String) (hv : vocab.Nodup) :
    (vocab.map (fun v => if isSentinel v then 0 else tags.count v)).sum
      = (tags.filter (fun t => !isSentinel t && vocab.contains t)).length := by
  induction tags with
  | nil => simp
  | cons t ts ih =>
    have hfun : (fun v => if isSentinel v then 0 else (t :: ts).count v)
        = fun v => (if isSentinel v then 0 else ts.count v)
            + (if isSentinel v then 0 else if v == t then 1 else 0) := by
      funext v
      by_cases hs : isSentinel v
      · simp [hs]
      · by_cases hvt : v = t
        · subst hvt
          simp [hs, List.count_cons]
        · simp [hs, List.count_cons, hvt]
    have hflen : (List.filter (fun x => !isSentinel x && vocab.contains x) (t :: ts)).length
        = (if (!isSentinel t && vocab.contains t) = true then 1 else 0)
          + (List.filter (fun x => !isSentinel x && vocab.contains x) ts).length := by
      rw [List.filter_cons]
      by_cases hp : (!isSentinel t && vocab.contains t) = true
      · rw [if_pos hp, if_pos hp, List.length_cons]
        omega
      · rw [if_neg hp, if_neg hp]
        omega
    rw [hfun, List.sum_map_add, ih, sum_indicator t vocab hv, hflen]
    exact Nat.add_comm _ _

theorem contrib_eq (it : Item) (rf cf r c : String) :
    it.contrib rf cf r c =
      (if isSentinel r then 0 else (it.getField rf).count r) *
        ((if isSentinel c then 0 else (it.getField cf).count c) * it.frequency) := by
  unfold Item.contrib
  by_cases hr : isSentinel r
  · simp [hr]
  · by_cases hc : isSentinel c
    · simp [hr, hc]
    · simp [hr, hc, Nat.mul_assoc]

theorem item_cell_sum (it : Item) (rf cf : String) (rows cols : List String)
    (hr : rows.Nodup) (hc : cols.Nodup) :
    (rows.map (fun r => (cols.map (fun c => it.contrib rf cf r c)).sum)).sum
      = ((it.getField rf).filter (fun t => !isSentinel t && rows.contains t)).length *
        (((it.getField cf).filter (fun t => !isSentinel t && cols.contains t)).length *
          it.frequency) := by
  have hfun : (fun r => (cols.map (fun c => it.contrib rf cf r c)).sum)
      = fun r => (if isSentinel r then 0 else (it.getField rf).count r) *
          ((cols.map (fun c => if isSentinel c then 0 else (it.getField cf).count c)).sum *
            it.frequency) := by
    funext r
    have hcf : (fun c => it.contrib rf cf r c)
        = fun c => (if isSentinel r then 0 else (it.getField rf).count r) *
            ((if isSentinel c then 0 else (it.getField cf).count c) * it.frequency) :=
      funext (fun c => contrib_eq it rf cf r c)
    rw [hcf, List.sum_map_mul_left]
    apply congrArg
    have hmul : (fun c => (if isSentinel c then 0 else (it.getField cf).count c) * it.frequency)
        = fun c => (fun v => if isSentinel v then 0 else (it.getField cf).count v) c *
            it.frequency := rfl
    rw [hmul, List.sum_map_mul_right]
  rw [hfun, List.sum_map_mul_right, sum_count_vocab (it.getField rf) rows hr,
    sum_count_vocab (it.getField cf) cols hc]

/-- C3 amended: with duplicate-free vocabularies, the sum of all matrix
cells equals the sum over items of frequency times the number of
non-sentinel row tags lying in the row vocabulary times the number of
non-sentinel column tags lying in the column vocabulary. -/
theorem buildMatrix_cell_sum (items : List Item) (rf cf : String) (rows cols : List String)
    (hr : rows.Nodup) (hc : cols.Nodup) :
    sumCells (buildMatrix items rf cf rows cols) =
      (items.map (fun it =>
        it.frequency *
          ((it.getField rf).filter (fun t => !isSentinel t && rows.contains t)).length *
          ((it.getField cf).filter (fun t => !isSentinel t && cols.contains t)).length)).sum := by
  induction items with
  | nil =>
    have hz : ∀ (l : List String), (l.map (fun _ : String => (0 : Nat))).sum = 0 := by
      intro l
      induction l with
      | nil => simp
      | cons x xs ihx => simp [ihx]
    simp only [sumCells, buildMatrix, List.map_nil, List.sum_nil]
    rw [show (fun r => ((cols.map (fun _ : String => (0 : Nat))).sum)) =
      (fun _ : String => (0 : Nat)) from funext (fun r => hz cols), hz rows]
  | cons it its ih =>
    have hfun : (fun r => (cols.map (fun c =>
          ((it :: its).map (fun i => i.contrib rf cf r c)).sum)).sum)
        = fun r => (cols.map (fun c => it.contrib rf cf r c)).sum
            + (cols.map (fun c => (its.map (fun i => i.contrib rf cf r c)).sum)).sum := by
      funext r
      have hpt : (fun c => ((it :: its).map (fun i => i.contrib rf cf r c)).sum)
          = fun c => it.contrib rf cf r c + (its.map (fun i => i.contrib rf cf r c)).sum := by
        funext c
        rw [List.map_cons, List.sum_cons]
      rw [hpt, List.sum_map_add]
    simp only [sumCells, buildMatrix] at ih ⊢
    rw [hfun, List.sum_map_add, ih, item_cell_sum it rf cf rows cols hr hc,
      List.map_cons, List.sum_cons]
    ring

/-- C3 counterexample: with an item whose puzzle-type tag lies outside
the row vocabulary, the matrix cell sum differs from the spec's
vocabulary-free formula. -/
theorem buildMatrix_cell_sum_counterexample :
    sumCells (buildMatrix [itemOffVocab] ("puzzle_types") ("themes")
        ["word search"] ["animals"]) ≠
      specCellTotal [itemOffVocab] ("puzzle_types") ("themes") := by decide

theorem buildMatrix_cell_sum_witness :
    (["word search"] : List String).Nodup ∧
    sumCells (buildMatrix [itemOffVocab] ("puzzle_types") ("themes")
        ["word search"] ["animals"]) =
      ([itemOffVocab].map (fun it =>
        it.frequency *
          ((it.getField ("puzzle_types")).filter
            (fun t => !isSentinel t && (["word search"] : List String).contains t)).length *
          ((it.getField ("themes")).filter
            (fun t => !isSentinel t && (["animals"] : List String).contains t)).length)).sum :=
  ⟨by decide,
   buildMatrix_cell_sum [itemOffVocab] ("puzzle_types") ("themes")
     ["word search"] ["animals"] (by decide) (by decide)⟩

theorem lookup_entry_not_mem (f : String → List String) :
    ∀ (vocab : List String) (v : String), v ∉ vocab →
      (vocab.filterMap (fun x =>
        if (f x).isEmpty then none else some (x, f x))).lookup v = none := by
  intro vocab
  induction vocab with
  | nil =>
    intro v _
    rfl
  | cons w ws ih =>
    intro v hv
    have hvw : (v == w) = false :=
      beq_eq_false_iff_ne.mpr (fun h => hv (h ▸ List.mem_cons_self w ws))
    have hvws : v ∉ ws := fun h => hv (List.mem_cons_of_mem w h)
    by_cases he : (f w).isEmpty = true
    · rw [List.filterMap_cons_none (by rw [if_pos he])]
      exact ih v hvws
    · rw [List.filterMap_cons_some (by rw [if_neg he])]
      simp only [List.lookup, hvw]
      exact ih v hvws

theorem lookup_entry_mem (f : String → List String) :
    ∀ (vocab : List String), vocab.Nodup → ∀ v ∈ vocab,
      (vocab.filterMap (fun x =>
        if (f x).isEmpty then none else some (x, f x))).lookup v =
        if (f v).isEmpty then none else some (f v) := by
  intro vocab
  induction vocab with
  | nil =>
    intro _ v hv
    exact absurd hv (List.not_mem_nil v)
  | cons w ws ih =>
    intro hnd v hv
    have hwmem : w ∉ ws := (List.nodup_cons.mp hnd).1
    have hws : ws.Nodup := (List.nodup_cons.mp hnd).2
    rcases List.mem_cons.mp hv with hvw | hvws
    · subst hvw
      by_cases he : (f v).isEmpty = true
      · rw [List.filterMap_cons_none (by rw [if_pos he]), if_pos he]
        exact lookup_entry_not_mem f ws v hwmem
      · rw [List.filterMap_cons_some (by rw [if_neg he]), if_neg he]
        simp [List.lookup]
    · have hvw : (v == w) = false :=
        beq_eq_false_iff_ne.mpr (fun h => hwmem (h ▸ hvws))
      by_cases he : (f w).isEmpty = true
      · rw [List.filterMap_cons_none (by rw [if_pos he])]
        exact ih hws v hvws
      · rw [List.filterMap_cons_some (by rw [if_neg he])]
        simp only [List.lookup, hvw]
        exact ih hws v hvws

/-- C6: the modifier gap finder maps every vocabulary value to the
ordered list of key modifiers never observed with it, includes a value
exactly when that list is non-empty, and in particular reports large
print missing for crossword whenever no item pairs them. -/
theorem findModifierGaps_spec (items : List Item) :
    (∀ v ∈ PUZZLE_TYPES,
      (findModifierGaps items).puzzle_type_modifier_gaps.lookup v =
        (if (keyModifiers.filter (fun md => !puzzleObserved items v md)).isEmpty then none
         else some (keyModifiers.filter (fun md => !puzzleObserved items v md)))) ∧
    (∀ v ∈ AUDIENCES,
      (findModifierGaps items).audience_modifier_gaps.lookup v =
        (if (keyModifiers.filter (fun md => !audienceObserved items v md)).isEmpty then none
         else some (keyModifiers.filter (fun md => !audienceObserved items v md)))) ∧
    ((∀ it ∈ items, "crossword" ∈ it.puzzle_types → "large print" ∉ it.modifiers) →
      ∃ l, (findModifierGaps items).puzzle_type_modifier_gaps.lookup ("crossword") = some l ∧
        "large print" ∈ l) := by
  have hpuz : ∀ v ∈ PUZZLE_TYPES,
      (findModifierGaps items).puzzle_type_modifier_gaps.lookup v =
        (if (keyModifiers.filter (fun md => !puzzleObserved items v md)).isEmpty then none
         else some (keyModifiers.filter (fun md => !puzzleObserved items v md))) :=
    lookup_entry_mem (fun pt => keyModifiers.filter (fun md => !puzzleObserved items pt md))
      PUZZLE_TYPES (by decide)
  have haud : ∀ v ∈ AUDIENCES,
      (findModifierGaps items).audience_modifier_gaps.lookup v =
        (if (keyModifiers.filter (fun md => !audienceObserved items v md)).isEmpty then none
         else some (keyModifiers.filter (fun md => !audienceObserved items v md))) :=
    lookup_entry_mem (fun aud => keyModifiers.filter (fun md => !audienceObserved items aud md))
      AUDIENCES (by decide)
  refine ⟨hpuz, haud, ?_⟩
  intro h
  have hobs : puzzleObserved items ("crossword") ("large print") = false := by
    unfold puzzleObserved
    have hany : items.any
        (fun it => it.puzzle_types.contains ("crossword") &&
          it.modifiers.contains ("large print")) = false := by
      rw [List.any_eq_false]
      intro it hit
      by_cases hc : "crossword" ∈ it.puzzle_types
      · have hm : "large print" ∉ it.modifiers := h it hit hc
        simp [hm]
      · simp [hc]
    rw [hany]
    rfl
  have hmem : "large print" ∈ keyModifiers.filter (fun md => !puzzleObserved items ("crossword") md) := by
    rw [List.mem_filter]
    exact ⟨by decide, by rw [hobs]; rfl⟩
  have hne : (keyModifiers.filter (fun md => !puzzleObserved items ("crossword") md)).isEmpty = false := by
    rcases hfe : (keyModifiers.filter (fun md => !puzzleObserved items ("crossword") md)) with _ | ⟨x, xs⟩
    · rw [hfe] at hmem
      exact absurd hmem (List.not_mem_nil _)
    · rfl
  refine ⟨keyModifiers.filter (fun md => !puzzleObserved items ("crossword") md), ?_, hmem⟩
  rw [hpuz ("crossword") (by decide), if_neg (by rw [hne]; exact Bool.false_ne_true)]

theorem findModifierGaps_spec_witness :
    ∃ l, (findModifierGaps exItemsMod).puzzle_type_modifier_gaps.lookup ("crossword") = some l ∧
      "large print" ∈ l :=
  (findModifierGaps_spec exItemsMod).2.2 (by decide)

/-- C7: an opportunity (p, t, n) is emitted exactly when p is a
vocabulary puzzle type, t is a theme observed somewhere (sentinels
excluded), t is not co-tagged with p, and n, the number of other puzzle
types whose theme sets contain t, is at least two; the list is sorted
descending by that count. -/
theorem findCrossTypeOpportunities_spec (items : List Item) :
    (∀ o : CrossTypeOpportunity, o ∈ findCrossTypeOpportunities items ↔
      o.puzzle_type ∈ PUZZLE_TYPES ∧ o.theme ∈ allThemesSeen items ∧
        typeThemesB items o.puzzle_type o.theme = false ∧
        o.other_types_with_theme = otherTypeCount items o.puzzle_type o.theme ∧
        2 ≤ o.other_types_with_theme) ∧
    (findCrossTypeOpportunities items).Sorted
      (fun o₁ o₂ => o₂.other_types_with_theme ≤ o₁.other_types_with_theme) := by
  constructor
  · intro o
    unfold findCrossTypeOpportunities
    rw [List.mem_insertionSort, List.mem_flatMap]
    constructor
    · rintro ⟨pt, hpt, ho⟩
      rw [List.mem_filterMap] at ho
      obtain ⟨th, hth, hsome⟩ := ho
      by_cases h1 : typeThemesB items pt th = true
      · rw [if_pos h1] at hsome
        exact absurd hsome (by simp)
      · rw [if_neg h1] at hsome
        by_cases h2 : 2 ≤ otherTypeCount items pt th
        · rw [if_pos h2] at hsome
          have ho : o = ⟨pt, th, otherTypeCount items pt th⟩ :=
            (Option.some_injective _ hsome).symm
          subst ho
          exact ⟨hpt, hth, Bool.not_eq_true _ ▸ (eq_false_of_ne_true h1), rfl, h2⟩
        · rw [if_neg h2] at hsome
          exact absurd hsome (by simp)
    · rintro ⟨hp, ht, hb, hn, h2⟩
      refine ⟨o.puzzle_type, hp, ?_⟩
      rw [List.mem_filterMap]
      refine ⟨o.theme, ht, ?_⟩
      rw [if_neg (by rw [hb]; exact Bool.false_ne_true), if_pos (hn ▸ h2), ← hn]
  · exact List.sorted_insertionSort ctGE _

theorem findCrossTypeOpportunities_spec_witness :
    (⟨"maze", "animals", 3⟩ : CrossTypeOpportunity) ∈
      findCrossTypeOpportunities exItemsCross :=
  ((findCrossTypeOpportunities_spec exItemsCross).1 _).mpr (by decide)

/-- C8 amended: an unrecognized dimension name raises no error; the
matrix builder silently treats it as an empty tag list, so every cell of
the result is zero. -/
theorem buildMatrix_unrecognized_dimension (items : List Item) (rf cf : String)
    (rows cols : List String) (h : rf ∉ fieldNames) :
    ∀ r c, (buildMatrix items rf cf rows cols).cell r c = 0 := by
  intro r c
  apply List.sum_eq_zero
  intro x hx
  rw [List.mem_map] at hx
  obtain ⟨it, _, rfl⟩ := hx
  have hget : it.getField rf = [] := by
    unfold Item.getField
    unfold fieldNames at h
    simp only [List.mem_cons, List.not_mem_nil, or_false] at h
    push_neg at h
    rw [if_neg h.1, if_neg h.2.1, if_neg h.2.2.1, if_neg h.2.2.2.1, if_neg h.2.2.2.2]
  unfold Item.contrib
  rw [hget]
  by_cases hs : (isSentinel r || isSentinel c) = true
  · rw [if_pos hs]
  · rw [if_neg hs]
    simp

/-- C8 counterexample: the builder called with the unrecognized
dimension name puzzle_kind silently returns the all-zero matrix for an
item that, under the proper name puzzle_types, contributes five. -/
theorem buildMatrix_unrecognized_dimension_counterexample :
    sumCells (buildMatrix [itemWordSearch] ("puzzle_kind") ("themes")
        ["word search"] ["animals"]) = 0 ∧
    sumCells (buildMatrix [itemWordSearch] ("puzzle_types") ("themes")
        ["word search"] ["animals"]) = 5 := by decide

theorem buildMatrix_unrecognized_dimension_witness :
    ("puzzle_kind" ∉ fieldNames) ∧
    (buildMatrix [itemWordSearch] ("puzzle_kind") ("themes")
      ["word search"] ["animals"]).cell ("word search") ("animals") = 0 :=
  ⟨by decide,
   buildMatrix_unrecognized_dimension [itemWordSearch] ("puzzle_kind") ("themes")
     ["word search"] ["animals"] (by decide) ("word search") ("animals")⟩

/-- C9 amended: the gap scorer accepts non-positive thresholds without
signalling any error; because totals are non-negative such thresholds
filter nothing, so the result coincides with thresholds zero. -/
theorem findGaps_nonpositive_thresholds (m : CMatrix) (a b : ℤ)
    (ha : a ≤ 0) (hb : b ≤ 0) :
    findGaps m a b = findGaps m 0 0 := by
  unfold findGaps
  apply congrArg (List.insertionSort gapGE)
  apply congrArg (fun f => m.rows.flatMap f)
  funext r
  rw [if_neg (not_lt.mpr (le_trans ha (Int.natCast_nonneg _))),
    if_neg (not_lt.mpr (Int.natCast_nonneg _))]
  apply congrArg (fun f => m.cols.filterMap f)
  funext c
  by_cases hcell : m.cell r c ≠ 0
  · rw [if_pos hcell, if_pos hcell]
  · rw [if_neg hcell, if_neg hcell,
      if_neg (not_lt.mpr (le_trans hb (Int.natCast_nonneg _))),
      if_neg (not_lt.mpr (Int.natCast_nonneg _))]

/-- C9 counterexample: negative thresholds are processed normally, with
a non-empty ordinary result instead of any error signal. -/
theorem findGaps_negative_threshold_counterexample :
    findGaps exM (-1) (-1) = findGaps exM 0 0 ∧ findGaps exM (-1) (-1) ≠ [] := by decide

theorem findGaps_nonpositive_thresholds_witness :
    (-1 : ℤ) ≤ 0 ∧ findGaps exM (-1) (-1) = findGaps exM 0 0 :=
  ⟨by decide, findGaps_nonpositive_thresholds exM (-1) (-1) (by decide) (by decide)⟩

/-- C10: a vocabulary value equal to one of the sentinel strings
unknown, general or none always has an all-zero row and an all-zero
column in every built matrix, even when items carry it as a tag. -/
theorem buildMatrix_sentinel_all_zero (items : List Item) (rf cf : String)
    (rows cols : List String) (v : String) (hv : isSentinel v = true) :
    (∀ c, (buildMatrix items rf cf rows cols).cell v c = 0) ∧
    (∀ r, (buildMatrix items rf cf rows cols).cell r v = 0) := by
  constructor
  · intro c
    apply List.sum_eq_zero
    intro x hx
    rw [List.mem_map] at hx
    obtain ⟨it, _, rfl⟩ := hx
    unfold Item.contrib
    rw [if_pos (by rw [hv]; rfl)]
  · intro r
    apply List.sum_eq_zero
    intro x hx
    rw [List.mem_map] at hx
    obtain ⟨it, _, rfl⟩ := hx
    unfold Item.contrib
    rw [if_pos (by rw [hv, Bool.or_true])]

theorem buildMatrix_sentinel_all_zero_witness :
    isSentinel ("none") = true ∧
    (buildMatrix [itemNoneTag] ("puzzle_types") ("themes")
      ["none", "word search"] ["animals"]).cell ("none") ("animals") = 0 :=
  ⟨by decide,
   (buildMatrix_sentinel_all_zero [itemNoneTag] ("puzzle_types") ("themes")
     ["none", "word search"] ["animals"] ("none") (by decide)).1 ("animals")⟩

end GapFinder


